import Mathlib

/-!
# Verification of the ygg cascading multi-pane navigator

Shallow embedding of the client-side navigator in `src/ui/src/main.jsx`
(the `App` component): the filter engine (the `matchSorter` call with
keys `['name', 'details']`), the per-pane navigation state, the
layout-effect cascade ("CascadeController pass"), and the keyboard
handler ("KeyRouter").

Modelling conventions, stated once here:

* JavaScript strings are modelled as Lean `String` restricted to ASCII;
  `toLowerCase` is `Char.toLower` per character.
* `null` and `undefined` are both modelled as `none`; the ids, filter
  texts and parent ids the program stores are strings, so `Option String`
  covers every value that can actually occur in those fields.
* The component runs under React 17 legacy mode (`ReactDOM.render`,
  `react-query` v3).  State updates issued from a native
  `document.addEventListener('keydown')` listener are not batched there:
  each `set...` call synchronously re-renders and runs the layout
  effects to a fixed point before the next statement of the handler
  executes.  We model one such synchronous settle as `runPass` and a
  keyboard event as the sequence of `update`-then-`runPass` flushes the
  handler performs.
* A layout effect re-runs exactly when its dependency array differs
  from the previously rendered one; within one commit all effects whose
  dependencies changed run in declaration order, reading the committed
  state and batching their writes into the next render.  `stepPass`
  is one commit; the writes of the seven effects touch pairwise
  distinct fields (the two writers of `filterTexts[2]` both write `""`),
  so they are applied simultaneously.
-/

/-- A selectable entry of a pane's list, as consumed by the UI
(`item.id`, `item.name`, `item.detail`, `item.hasChildren`,
`item.indirectTypes` in `src/ui/src/main.jsx`). -/
structure Candidate where
  id : String
  name : String
  detail : String
  hasChildren : Bool
  indirectTypes : List String
  iconRef : String
deriving DecidableEq, Repr

/-! ## FilterEngine: the `matchSorter` call

`filteredListItems` is `matchSorter(query.data || [], filterTexts[index],
{keys: ['name', 'details']})`.  We embed the match-sorter v6 algorithm:
per-key ranking tiers CASE_SENSITIVE_EQUAL=7, EQUAL=6, STARTS_WITH=5,
WORD_STARTS_WITH=4, CONTAINS=3, ACRONYM=2, MATCHES=1, NO_MATCH=0, the
closeness ranking `MATCHES + inOrderPercentage * (1/spread)` for fuzzy
subsequence matches, threshold MATCHES, and the final sort by rank
descending, then key index, then the default base sort
`String(a.rankedValue).localeCompare(String(b.rankedValue))` —
alphabetical on the matched value, with insertion order (the ES2019
stable sort) only when the comparator reports a tie.  Ranks are `Rat`
because closeness ranks are 1 + 1/spread.

Note the configured key `'details'` does not exist on a `Candidate`
(the field, used elsewhere in the same file as `item.detail`, is
`detail`), so that key contributes no values to rank. -/

/-- Substring containment on character lists (JS `String.includes`). -/
def listIsInfix (needle : List Char) : List Char → Bool
  | [] => needle.isEmpty
  | c :: t => needle.isPrefixOf (c :: t) || listIsInfix needle t

/-- JS `String.split(sep)` on character lists. -/
def splitOnChar (sep : Char) : List Char → List (List Char)
  | [] => [[]]
  | c :: cs =>
    let r := splitOnChar sep cs
    if c = sep then [] :: r
    else
      match r with
      | [] => [[c]]
      | w :: ws => (c :: w) :: ws

/-- match-sorter `getAcronym`: first character of every word, words split
on spaces and hyphens. -/
def getAcronym (s : List Char) : List Char :=
  ((splitOnChar ' ' s).map (splitOnChar '-')).flatten.filterMap List.head?

/-- Index of the first occurrence of `c` in `l` at position `≥ i`
(match-sorter `findMatchingCharacter`, returning the matched index `j`;
the JS function returns `j + 1`, which the callers below add). -/
def findFromAux (c : Char) : List Char → Nat → Option Nat
  | [], _ => none
  | x :: xs, j => if x = c then some j else findFromAux c xs (j + 1)

def findFrom (c : Char) (l : List Char) (i : Nat) : Option Nat :=
  findFromAux c (l.drop i) i

/-- The loop of match-sorter `getClosenessRanking`: match the remaining
characters in order, searching from `pos`; returns the final
`charNumber` (one past the index of the last matched character). -/
def closenessGo (t : List Char) : List Char → Nat → Option Nat
  | [], pos => some pos
  | c :: cs, pos =>
    match findFrom c t pos with
    | none => none
    | some j => closenessGo t cs (j + 1)

/-- match-sorter `getClosenessRanking` for lowercased `testString` `t`
and `stringToRank` `r`: `NO_MATCH` unless `r` is an in-order
subsequence of `t`; on success every character matches, so
`inOrderPercentage = 1` and the rank is `MATCHES + 1/spread`. -/
def getClosenessRanking (t r : List Char) : Rat :=
  match r with
  | [] => 0
  | c0 :: rest =>
    match findFrom c0 t 0 with
    | none => 0
    | some j0 =>
      match closenessGo t rest (j0 + 1) with
      | none => 0
      | some last =>
        let spread : Nat := last - (j0 + 1)
        1 + (1 : Rat) / spread

/-- The case-insensitive tail of `getMatchRanking`, on the lowercased
character lists. -/
def getMatchRankingLower (t r : List Char) : Rat :=
  if t = r then 6
  else if r.isPrefixOf t then 5
  else if listIsInfix (' ' :: r) t then 4
  else if listIsInfix r t then 3
  else if r.length = 1 then 0
  else if listIsInfix r (getAcronym t) then 2
  else getClosenessRanking t r

/-- match-sorter `getMatchRanking testString stringToRank` (ASCII, default
options: no diacritics to strip). -/
def getMatchRanking (testString stringToRank : String) : Rat :=
  if stringToRank.toList.length > testString.toList.length then 0
  else if testString.toList = stringToRank.toList then 7
  else getMatchRankingLower (testString.toList.map Char.toLower)
    (stringToRank.toList.map Char.toLower)

/-- The values the configured keys extract from a candidate.  The key
`'name'` yields the name; the key `'details'` names a property that does
not exist on the candidate objects (their field is `detail`), so it
yields no values, exactly as `getItemValues` does for a missing key. -/
def itemValuesForKey (c : Candidate) (key : String) : List String :=
  if key = "name" then [c.name]
  else if key = "detail" then [c.detail]
  else []

/-- The keys passed to `matchSorter` in `src/ui/src/main.jsx`. -/
def matchSorterKeys : List String := ["name", "details"]

def allValuesToRank (c : Candidate) : List String :=
  (matchSorterKeys.map (itemValuesForKey c)).flatten

/-- Modelled `localeCompare`: the default base sort compares the matched
values with `String(a.rankedValue).localeCompare(String(b.rankedValue))`.
We model it as lexicographic comparison of the character lists, which
agrees with the ECMA-402 default collator on the lowercase alphanumeric
ASCII names used in the concrete runs below (collation subtleties for
case, punctuation and diacritics are out of scope). -/
def lexCompare : List Char → List Char → Ordering
  | [], [] => .eq
  | [], _ :: _ => .lt
  | _ :: _, [] => .gt
  | a :: as, b :: bs =>
    if a < b then .lt
    else if b < a then .gt
    else lexCompare as bs

/-- match-sorter `getHighestRanking` fold: strict improvement updates the
rank and records the flattened key index and the winning key's value
(`rankedValue`); initial accumulator is `(NO_MATCH, -1, item)`.  Any
kept item (rank ≥ threshold = 1 > NO_MATCH) has been improved at least
once, so its `rankedValue` is the name — the only key value a candidate
yields — and the initial stand-in (we use the name for the source's
item object, which `String(...)` would render only below the threshold)
is unobservable.  Default key attributes clamp with ±infinity, i.e. not
at all, so no clamping is modelled. -/
def highestAux (value : String) :
    List String → Nat → Rat × Int × String → Rat × Int × String
  | [], _, acc => acc
  | v :: vs, i, (rank, kIdx, rv) =>
    let newRank := getMatchRanking v value
    if rank < newRank then highestAux value vs (i + 1) (newRank, i, v)
    else highestAux value vs (i + 1) (rank, kIdx, rv)

def getHighestRanking (c : Candidate) (value : String) : Rat × Int × String :=
  highestAux value (allValuesToRank c) 0 (0, -1, c.name)

/-- One entry of match-sorter's intermediate ranked list.  `index` is
the insertion index; the default base sort ignores it (only custom base
sorts consume it), but it is carried for fidelity. -/
structure RankedItem where
  item : Candidate
  rankedValue : String
  rank : Rat
  keyIndex : Int
  index : Nat
deriving DecidableEq, Repr

/-- `a` sorts strictly before `b` (`sortRankedValues` with the default
base sort): higher rank first, then smaller key index, then
`localeCompare` on the ranked values.  When the comparator reports a
tie (identical ranked values), the ES2019 stable sort keeps insertion
order, which the stable insertion sort below mirrors. -/
def RankedBefore (a b : RankedItem) : Prop :=
  b.rank < a.rank ∨
    (a.rank = b.rank ∧
      (a.keyIndex < b.keyIndex ∨
        (a.keyIndex = b.keyIndex ∧
          lexCompare a.rankedValue.toList b.rankedValue.toList = Ordering.lt)))

instance (a b : RankedItem) : Decidable (RankedBefore a b) := by
  unfold RankedBefore; infer_instance

def rankedInsert (x : RankedItem) : List RankedItem → List RankedItem
  | [] => [x]
  | y :: ys => if RankedBefore y x then y :: rankedInsert x ys else x :: y :: ys

def rankedSort : List RankedItem → List RankedItem
  | [] => []
  | x :: xs => rankedInsert x (rankedSort xs)

/-- match-sorter `reduceItemsToRanked`: rank each item, keep those with
rank ≥ threshold (= MATCHES = 1), tagging the insertion index. -/
def rankItems (value : String) : Nat → List Candidate → List RankedItem
  | _, [] => []
  | i, c :: cs =>
    let hr := getHighestRanking c value
    if 1 ≤ hr.1 then ⟨c, hr.2.2, hr.1, hr.2.1, i⟩ :: rankItems value (i + 1) cs
    else rankItems value (i + 1) cs

/-- `matchSorter(items, value, {keys: ['name', 'details']})`. -/
def matchSorter (items : List Candidate) (value : String) : List Candidate :=
  (rankedSort (rankItems value 0 items)).map RankedItem.item

/-- Stable insertion by `localeCompare` on candidate names: the
reference order of the empty-filter-text result.  Under the empty
filter text every candidate with a non-empty name ranks STARTS_WITH
with key index 0, so match-sorter's default base sort on the matched
name alone decides, keeping input order only for identical names. -/
def nameInsert (c : Candidate) : List Candidate → List Candidate
  | [] => [c]
  | y :: ys =>
    if lexCompare y.name.toList c.name.toList = Ordering.lt then y :: nameInsert c ys
    else c :: y :: ys

def sortByName : List Candidate → List Candidate
  | [] => []
  | c :: cs => nameInsert c (sortByName cs)

/-! ## Navigator state

The `App` component's state: `parentIndex` (the active pane, always in
`{0, 1, 2}` — written only by the Tab handler, which wraps within the
visible pane count, and by pane clicks with index 0..2, so we give it
type `Fin 3`), `filterTexts`, `parentIds` and `childIds`, each a
three-element array addressed DIRECT=0, ACTION=1, INDIRECT=2.
`parentIds[1]` exists but is never read (actions have no children). -/

structure AppState where
  parentIndex : Fin 3
  ft0 : String
  ft1 : String
  ft2 : String
  p0 : Option String
  p1 : Option String
  p2 : Option String
  c0 : Option String
  c1 : Option String
  c2 : Option String
deriving DecidableEq, Repr

/-- The data the three `useQueries` observers currently report
(`itemsQueries[i].data`); `none` is "no data yet". -/
structure QueryData where
  d0 : Option (List Candidate)
  d1 : Option (List Candidate)
  d2 : Option (List Candidate)
deriving DecidableEq, Repr

/-- `filteredListItems[i] = matchSorter(query.data || [], filterTexts[i], ...)`,
as a function of the filter text. -/
def filteredOf (dta : Option (List Candidate)) (ft : String) : List Candidate :=
  matchSorter (dta.getD []) ft

def filtered0 (d : QueryData) (s : AppState) : List Candidate := filteredOf d.d0 s.ft0
def filtered1 (d : QueryData) (s : AppState) : List Candidate := filteredOf d.d1 s.ft1
def filtered2 (d : QueryData) (s : AppState) : List Candidate := filteredOf d.d2 s.ft2

/-- `items?.[0]?.id`. -/
def firstIdOf (l : List Candidate) : Option String := l.head?.map Candidate.id

def first0 (d : QueryData) (s : AppState) : Option String := firstIdOf (filtered0 d s)
def first1 (d : QueryData) (s : AppState) : Option String := firstIdOf (filtered1 d s)
def first2 (d : QueryData) (s : AppState) : Option String := firstIdOf (filtered2 d s)

/-- JS truthiness of the first-id values guarding the auto-select
effects: `undefined` and `""` are falsy. -/
def truthy : Option String → Bool
  | none => false
  | some s => s ≠ ""

/-- `itemsQueries[1]?.data?.find(item => item.id === actionChildId)
?.indirectTypes?.length > 0`.  A `null` `actionChildId` matches no item
(`string === null` is false), and a missing find result or missing
`indirectTypes` yields `undefined > 0 = false`. -/
def shouldShowIndirect (d : QueryData) (s : AppState) : Bool :=
  match (d.d1.getD []).find? (fun it => s.c1 = some it.id) with
  | none => false
  | some it => it.indirectTypes.length > 0

/-! ## The CascadeController pass

The seven `useLayoutEffect`s of the component, in declaration order,
with their dependency arrays exactly as written in the source (the
stable `setX` functions in the arrays never change and are omitted):

* E0 clears `filterTexts[0]`, deps `[directParentId]`;
* E1 clears `filterTexts[2]`, deps `[indirectParentId]`;
* E2 clears `filterTexts[1]`, deps `[directChildId]`;
* E3 clears `filterTexts[2]`, deps `[actionChildId]`;
* E4 sets `childIds[0]` to the first filtered direct id if truthy,
  deps `[firstDirectChildListItemId]`;
* E5 sets `childIds[1]` to the first filtered action id if truthy,
  deps `[firstActionChildListItemId, firstDirectChildListItemId,
  directChildId]`;
* E6 sets `childIds[2]` to the first filtered indirect id if truthy,
  deps `[firstIndirectChildListItemId, firstDirectChildListItemId,
  actionChildId]`. -/

/-- The dependency values of the seven effects at a given render. -/
structure Deps where
  e0 : Option String
  e1 : Option String
  e2 : Option String
  e3 : Option String
  e4 : Option String
  e5a : Option String
  e5b : Option String
  e5c : Option String
  e6a : Option String
  e6b : Option String
  e6c : Option String
deriving DecidableEq, Repr

def computeDeps (d : QueryData) (s : AppState) : Deps where
  e0 := s.p0
  e1 := s.p2
  e2 := s.c0
  e3 := s.c1
  e4 := first0 d s
  e5a := first1 d s
  e5b := first0 d s
  e5c := s.c0
  e6a := first2 d s
  e6b := first0 d s
  e6c := s.c1

/-- One commit: every effect whose dependency values `n` differ from the
previously rendered ones `o` runs, reading the committed state `s` and
writing its field.  The effects write pairwise distinct fields except
that E1 and E3 both write `filterTexts[2]`, and both write `""`, so the
sequential run of the fired effects equals this simultaneous update. -/
def applyEffects (n o : Deps) (s : AppState) : AppState :=
  { s with
    ft0 := if n.e0 = o.e0 then s.ft0 else ""
    ft1 := if n.e2 = o.e2 then s.ft1 else ""
    ft2 := if n.e1 = o.e1 ∧ n.e3 = o.e3 then s.ft2 else ""
    c0 := if n.e4 ≠ o.e4 ∧ truthy n.e4 then n.e4 else s.c0
    c1 := if ¬(n.e5a = o.e5a ∧ n.e5b = o.e5b ∧ n.e5c = o.e5c) ∧ truthy n.e5a
      then n.e5a else s.c1
    c2 := if ¬(n.e6a = o.e6a ∧ n.e6b = o.e6b ∧ n.e6c = o.e6c) ∧ truthy n.e6a
      then n.e6a else s.c2 }

/-- A committed render: the current state together with the dependency
values of the render that last ran the effects. -/
structure Committed where
  st : AppState
  ds : Deps
deriving DecidableEq, Repr

/-- One render-and-commit cycle of the reactive cascade. -/
def stepPass (d : QueryData) (σ : Committed) : Committed :=
  ⟨applyEffects (computeDeps d σ.st) σ.ds σ.st, computeDeps d σ.st⟩

/-- A full CascadeController pass: React re-renders until the layout
effects stop issuing updates.  Eight commits always reach the fixed
point (`stepPass_runPass` below), so the pass is modelled as eight. -/
def runPass (d : QueryData) (σ : Committed) : Committed :=
  stepPass d (stepPass d (stepPass d (stepPass d
    (stepPass d (stepPass d (stepPass d (stepPass d σ)))))))

/-! ## KeyRouter: the `keydown` handler -/

/-- Modelled from the spec: `wrapAround` from `src/server/utils.js` is
imported by the UI but that file is not in the sources; the spec (§4.5)
specifies wrapping at both ends over the given bounds, i.e. the
mathematical remainder in `[0, bounds)` for positive bounds. -/
def wrapAround (value : Int) (bounds : Nat) : Int :=
  ((value % bounds) + bounds) % bounds

/-- The Tab handler's functional update of `parentIndex`:
`wrapAround(index + direction, shouldShowIndirect ? 3 : 2)`. -/
def mkFin3 (value : Int) (bounds : Nat) (h1 : 0 < bounds) (h2 : bounds ≤ 3) : Fin 3 :=
  ⟨(wrapAround value bounds).toNat, by
    have hlt : wrapAround value bounds < bounds := by
      unfold wrapAround
      exact Int.emod_lt_of_pos _ (by exact_mod_cast h1)
    omega⟩

def tabTarget (indirectShown shiftKey : Bool) (idx : Fin 3) : Fin 3 :=
  let direction : Int := if shiftKey then -1 else 1
  if indirectShown then mkFin3 ((idx : Int) + direction) 3 (by omega) (by omega)
  else mkFin3 ((idx : Int) + direction) 2 (by omega) (by omega)

/-- The value the ArrowUp/ArrowDown handler writes to the active pane's
`childIds` slot: `filtered[wrapAround(findIndex(selected) + direction,
filtered.length)]?.id`.  JS `findIndex` is `-1` when the selected id is
absent; on an empty list `wrapAround` is `NaN` and indexing yields
`undefined`, modelled by the out-of-range `get?` returning `none`. -/
def jsFindIndex (items : List Candidate) (selected : Option String) : Int :=
  match items.findIdx? (fun it => selected = some it.id) with
  | some j => j
  | none => -1

def arrowTarget (items : List Candidate) (selected : Option String) (direction : Int) :
    Option String :=
  (items.get?
    (wrapAround (jsFindIndex items selected + direction) items.length).toNat).map
    Candidate.id

/-- Per-index access to the pane fields (`filterTexts[i]`, `parentIds[i]`,
`childIds[i]`). -/
def ftAt (s : AppState) : Fin 3 → String
  | 0 => s.ft0
  | 1 => s.ft1
  | 2 => s.ft2

def pAt (s : AppState) : Fin 3 → Option String
  | 0 => s.p0
  | 1 => s.p1
  | 2 => s.p2

def cAt (s : AppState) : Fin 3 → Option String
  | 0 => s.c0
  | 1 => s.c1
  | 2 => s.c2

def filteredAt (d : QueryData) (s : AppState) : Fin 3 → List Candidate
  | 0 => filtered0 d s
  | 1 => filtered1 d s
  | 2 => filtered2 d s

def setFtAt (s : AppState) : Fin 3 → String → AppState
  | 0, v => { s with ft0 := v }
  | 1, v => { s with ft1 := v }
  | 2, v => { s with ft2 := v }

def setPAt (s : AppState) : Fin 3 → Option String → AppState
  | 0, v => { s with p0 := v }
  | 1, v => { s with p1 := v }
  | 2, v => { s with p2 := v }

def setCAt (s : AppState) : Fin 3 → Option String → AppState
  | 0, v => { s with c0 := v }
  | 1, v => { s with c1 := v }
  | 2, v => { s with c2 := v }

/-- A DOM keyboard event as the handler reads it. -/
structure KeyEv where
  key : String
  shiftKey : Bool
  metaKey : Bool
  ctrlKey : Bool
  altKey : Bool
deriving DecidableEq, Repr

/-- A synchronous JavaScript exception escaping the handler. -/
inductive JsError where
  | typeError
deriving DecidableEq, Repr

/-- Failure of an awaited `api` call (the `api` helper throws on a
non-ok response; `fetch` itself rejects on network errors). -/
inductive ApiError where
  | apiError
deriving DecidableEq, Repr

/-- Observable outcome of one keyboard event: the settled committed
state, whether `preventDefault` was called, whether the execute command
was issued, whether `window.app?.hide()` ran, and whether the async
handler ended in a rejected promise (an awaited `api` call threw). -/
structure KeyOutcome where
  final : Committed
  consumed : Bool
  executed : Bool
  hidden : Bool
  rejected : Bool
deriving DecidableEq, Repr

/-- JS `'abcdefghijklmnopqrstuvwxyz1234567890'.includes(k)`. -/
def isAlnumKey (k : String) : Bool :=
  listIsInfix k.toList "abcdefghijklmnopqrstuvwxyz1234567890".toList

def lowerStr (s : String) : String := ⟨s.toList.map Char.toLower⟩

/-- The `keydown` handler.  The closure values (`parentIndex`,
`selectedChildId`, `filteredListItems`, `parentIds`, data …) are those
of the render that registered the listener, i.e. of `σ.st`; each
`set...` call flushes synchronously (React 17 legacy mode, native
listener) and settles the effect cascade before the next statement, so
a flush is `runPass d` of the updated committed state.  `leftResp` is
the response of the `api` call the ArrowLeft branch awaits (the json's
`parentId`, which may be absent), `enterResp` that of the Enter
branch's execute call. -/
def handleKey (itemCatalogId : String) (d : QueryData)
    (leftResp : Except ApiError (Option String)) (enterResp : Except ApiError Unit)
    (ev : KeyEv) (σ : Committed) : Except JsError KeyOutcome :=
  let s := σ.st
  let i := s.parentIndex
  if ev.key = "Tab" then
    let s' := { s with parentIndex := tabTarget (shouldShowIndirect d s) ev.shiftKey i }
    .ok ⟨runPass d ⟨s', σ.ds⟩, true, false, false, false⟩
  else if ev.key = "ArrowRight" then
    match (filteredAt d s i).find? (fun it => cAt s i = some it.id) with
    | none => .error .typeError   -- `item.hasChildren` with `item === undefined`
    | some it =>
      if it.hasChildren then
        .ok ⟨runPass d ⟨setPAt s i (cAt s i), σ.ds⟩, true, false, false, false⟩
      else
        .ok ⟨σ, true, false, false, false⟩
  else if ev.key = "ArrowLeft" then
    match pAt s i with
    | none => .ok ⟨σ, true, false, false, false⟩
    | some _ =>
      match leftResp with
      | .error _ => .ok ⟨σ, true, false, false, true⟩
      | .ok itemParentId =>
        let newParent := if itemParentId = some itemCatalogId then none else itemParentId
        .ok ⟨runPass d ⟨setPAt s i newParent, σ.ds⟩, true, false, false, false⟩
  else if ev.key = "ArrowUp" ∨ ev.key = "ArrowDown" then
    let direction : Int := if ev.key = "ArrowUp" then -1 else 1
    let nextId := arrowTarget (filteredAt d s i) (cAt s i) direction
    .ok ⟨runPass d ⟨setCAt s i nextId, σ.ds⟩, true, false, false, false⟩
  else if ev.key = "Enter" then
    match enterResp with
    | .error _ => .ok ⟨σ, true, true, false, true⟩
    | .ok _ => .ok ⟨σ, true, true, true, false⟩
  else if ev.key = "Backspace" then
    .ok ⟨runPass d ⟨setFtAt s i "", σ.ds⟩, true, false, false, false⟩
  else if ev.metaKey || ev.ctrlKey || ev.altKey then
    .ok ⟨σ, false, false, false, false⟩
  else if isAlnumKey (lowerStr ev.key) then
    let σ1 := runPass d ⟨setPAt s i (some itemCatalogId), σ.ds⟩
    let σ2 := runPass d ⟨setFtAt σ1.st i (ftAt σ1.st i ++ lowerStr ev.key), σ1.ds⟩
    .ok ⟨σ2, true, false, false, false⟩
  else
    .ok ⟨σ, false, false, false, false⟩

/-! ## QueryCache -/

/-- Modelled from the spec: the react-query cache behind `useQueries`
(the library is a dependency, not part of the sources).  Per §4.2 it is
a per-key async cache with three independent namespaces (the three
query-key prefixes `'direct children'`, `'action children'`,
`'indirect children'` in the source), and a resolving fetch writes its
payload under the key it was issued for.  The key parts are those the
source puts in the query keys: `directParentId` for the direct pane,
`directChildId` for the action pane, and
`(indirectParentId, actionChildId)` for the indirect pane. -/
structure QueryCache where
  direct : Option String → Option (List Candidate)
  action : Option String → Option (List Candidate)
  indirect : Option String × Option String → Option (List Candidate)

/-- The data the component observes for state `s`: each pane's cache
entry under its current key. -/
def observe (qc : QueryCache) (s : AppState) : QueryData :=
  ⟨qc.direct s.p0, qc.action s.c0, qc.indirect (s.p2, s.c1)⟩

/-- A fetch issued for direct-pane key `k` resolves with `payload`:
the cache entry for `k` — and only for `k` — is written. -/
def arriveDirect (qc : QueryCache) (k : Option String) (payload : List Candidate) :
    QueryCache :=
  { qc with direct := fun k' => if k' = k then some payload else qc.direct k' }

def arriveAction (qc : QueryCache) (k : Option String) (payload : List Candidate) :
    QueryCache :=
  { qc with action := fun k' => if k' = k then some payload else qc.action k' }

def arriveIndirect (qc : QueryCache) (k : Option String × Option String)
    (payload : List Candidate) : QueryCache :=
  { qc with indirect := fun k' => if k' = k then some payload else qc.indirect k' }

/-- Did the awaited execute call succeed? -/
def execSucceeded : Except ApiError Unit → Bool
  | .ok _ => true
  | .error _ => false

instance {ε α : Type} [DecidableEq ε] [DecidableEq α] : DecidableEq (Except ε α) := fun a b =>
  match a, b with
  | .error e, .error f => decidable_of_iff (e = f) (by simp)
  | .error _, .ok _ => isFalse (by simp)
  | .ok _, .error _ => isFalse (by simp)
  | .ok a, .ok b => decidable_of_iff (a = b) (by simp)

/-! ## Concrete runs

Data, states and events used by the concrete evaluations below.  A
state paired with `computeDeps` of itself is settled (its recorded
dependency values match the current ones), i.e. it is what a
CascadeController pass leaves behind. -/

/-- Root items "ax" (a folder), "b" and "cx". -/
def candAX : Candidate := ⟨"a", "ax", "", true, [], ""⟩
def candB : Candidate := ⟨"b", "b", "", false, [], ""⟩
def candCX : Candidate := ⟨"c", "cx", "", false, [], ""⟩

/-- Direct list fetched, selected item "b" has no actions. -/
def dC1 : QueryData := ⟨some [candAX, candB, candCX], some [], none⟩

/-- Settled: root shown (explicit catalog root id, as after previous
typing plus Backspace), empty filters, first item auto-selected. -/
def stC1 : AppState :=
  ⟨0, "", "", "", some "item-catalog", none, none, some "a", none, none⟩

def σC1 : Committed := ⟨stC1, computeDeps dC1 stC1⟩

def evDown : KeyEv := ⟨"ArrowDown", false, false, false, false⟩
def evX : KeyEv := ⟨"x", false, false, false, false⟩
def evRight : KeyEv := ⟨"ArrowRight", false, false, false, false⟩
def evLeft : KeyEv := ⟨"ArrowLeft", false, false, false, false⟩
def evS : KeyEv := ⟨"s", false, false, false, false⟩
def evTabCtrl : KeyEv := ⟨"Tab", false, false, true, false⟩

/-- An item, an action with one indirect type, and an indirect. -/
def candIT : Candidate := ⟨"it", "item", "", false, [], ""⟩
def candACT : Candidate := ⟨"act", "open with", "", false, ["app"], ""⟩
def candACTnone : Candidate := ⟨"act", "open with", "", false, [], ""⟩
def candIX : Candidate := ⟨"x", "ex", "", false, [], ""⟩

def dC3 : QueryData := ⟨some [candIT], some [candACT], some [candIX]⟩

/-- Same snapshot after the action-pane fetch resolved with a payload
whose action "act" carries no indirect types. -/
def dC3' : QueryData := ⟨some [candIT], some [candACTnone], some [candIX]⟩

/-- Settled with the indirect pane active. -/
def stC3 : AppState := ⟨2, "", "", "", none, none, none, some "it", some "act", some "x"⟩

def σC3 : Committed := ⟨stC3, computeDeps dC3 stC3⟩

/-- A folder and a file at the root. -/
def candF1 : Candidate := ⟨"f1", "folder", "", true, [], ""⟩
def candG : Candidate := ⟨"g", "goo", "", false, [], ""⟩

def dC5 : QueryData := ⟨some [candF1, candG], some [], none⟩

/-- The drilled-into folder's children arrive: the empty list. -/
def dC5' : QueryData := ⟨some [], some [], none⟩

def stC5 : AppState := ⟨0, "", "", "", none, none, none, some "f1", none, none⟩

def σC5 : Committed := ⟨stC5, computeDeps dC5 stC5⟩

/-- Root items for the typing scenario: one matching "s", one not. -/
def candApple : Candidate := ⟨"1", "apple", "", false, [], ""⟩
def candSand : Candidate := ⟨"2", "sand", "", false, [], ""⟩

def dC2 : QueryData := ⟨some [candApple, candSand], some [], none⟩

/-- The initial settled state: fresh start at the root (`parentId`
still `null`), nothing typed, first root item auto-selected. -/
def stC2 : AppState := ⟨0, "", "", "", none, none, none, some "1", none, none⟩

def σC2 : Committed := ⟨stC2, computeDeps dC2 stC2⟩

/-- Candidates for the filter-contract counterexample: name match,
exact name match, and a candidate whose `detail` — but not name —
matches. -/
def candAS : Candidate := ⟨"1", "as", "", false, [], ""⟩
def candS : Candidate := ⟨"2", "s", "", false, [], ""⟩
def candZZ : Candidate := ⟨"3", "zz", "s", false, [], ""⟩

def listC4 : List Candidate := [candAS, candS, candZZ]

/-- A list with an empty-name candidate in second position. -/
def candA0 : Candidate := ⟨"1", "a", "", false, [], ""⟩
def candE0 : Candidate := ⟨"2", "", "", false, [], ""⟩

def listC4' : List Candidate := [candA0, candE0]

/-- A two-element list whose fetch order is not alphabetical. -/
def candBB : Candidate := ⟨"b1", "bb", "", false, [], ""⟩
def candAA : Candidate := ⟨"a1", "aa", "", false, [], ""⟩

def listC4'' : List Candidate := [candBB, candAA]

/-- A cache for the stale-fetch scenario: only the root direct key is
populated. -/
def qcC10 : QueryCache :=
  ⟨fun k => if k = none then some [candF1, candG] else none,
   fun _ => none, fun _ => none⟩

def σC10 : Committed := ⟨stC5, computeDeps (observe qcC10 stC5) stC5⟩

/-! ## Basic lemmas about the pass -/

theorem applyEffects_self (n : Deps) (s : AppState) : applyEffects n n s = s := by
  simp [applyEffects]

theorem stepPass_st_parentIndex (d : QueryData) (σ : Committed) :
    (stepPass d σ).st.parentIndex = σ.st.parentIndex := rfl

theorem stepPass_st_p0 (d : QueryData) (σ : Committed) :
    (stepPass d σ).st.p0 = σ.st.p0 := rfl

theorem stepPass_st_p1 (d : QueryData) (σ : Committed) :
    (stepPass d σ).st.p1 = σ.st.p1 := rfl

theorem stepPass_st_p2 (d : QueryData) (σ : Committed) :
    (stepPass d σ).st.p2 = σ.st.p2 := rfl

theorem stepPass_st_ft0 (d : QueryData) (σ : Committed) :
    (stepPass d σ).st.ft0 = if σ.st.p0 = σ.ds.e0 then σ.st.ft0 else "" := rfl

theorem stepPass_st_ft1 (d : QueryData) (σ : Committed) :
    (stepPass d σ).st.ft1 = if σ.st.c0 = σ.ds.e2 then σ.st.ft1 else "" := rfl

theorem stepPass_st_ft2 (d : QueryData) (σ : Committed) :
    (stepPass d σ).st.ft2 =
      if σ.st.p2 = σ.ds.e1 ∧ σ.st.c1 = σ.ds.e3 then σ.st.ft2 else "" := rfl

theorem stepPass_st_c0 (d : QueryData) (σ : Committed) :
    (stepPass d σ).st.c0 =
      if first0 d σ.st ≠ σ.ds.e4 ∧ truthy (first0 d σ.st) then first0 d σ.st
      else σ.st.c0 := rfl

theorem stepPass_st_c1 (d : QueryData) (σ : Committed) :
    (stepPass d σ).st.c1 =
      if ¬(first1 d σ.st = σ.ds.e5a ∧ first0 d σ.st = σ.ds.e5b ∧ σ.st.c0 = σ.ds.e5c) ∧
          truthy (first1 d σ.st)
        then first1 d σ.st else σ.st.c1 := rfl

theorem stepPass_st_c2 (d : QueryData) (σ : Committed) :
    (stepPass d σ).st.c2 =
      if ¬(first2 d σ.st = σ.ds.e6a ∧ first0 d σ.st = σ.ds.e6b ∧ σ.st.c1 = σ.ds.e6c) ∧
          truthy (first2 d σ.st)
        then first2 d σ.st else σ.st.c2 := rfl

theorem stepPass_ds (d : QueryData) (σ : Committed) :
    (stepPass d σ).ds = computeDeps d σ.st := rfl

/-- The derived first ids only read the filter text of their own pane
(and the data snapshot). -/
theorem first0_eq_of_ft0 (d : QueryData) (s t : AppState) (h : s.ft0 = t.ft0) :
    first0 d s = first0 d t := by
  simp [first0, filtered0, h]

theorem first1_eq_of_ft1 (d : QueryData) (s t : AppState) (h : s.ft1 = t.ft1) :
    first1 d s = first1 d t := by
  simp [first1, filtered1, h]

theorem first2_eq_of_ft2 (d : QueryData) (s t : AppState) (h : s.ft2 = t.ft2) :
    first2 d s = first2 d t := by
  simp [first2, filtered2, h]

/-- A committed render whose recorded dependency values match the
current ones is a fixed point of the commit cycle. -/
theorem stepPass_of_deps_eq (d : QueryData) (σ : Committed)
    (h : σ.ds = computeDeps d σ.st) : stepPass d σ = σ := by
  cases σ with
  | mk st ds =>
    simp only [Committed.mk.injEq] at h
    simp [stepPass, h, applyEffects_self]

theorem stepPass_ds_e0 (d : QueryData) (σ : Committed) :
    (stepPass d σ).ds.e0 = σ.st.p0 := rfl

theorem stepPass_ds_e1 (d : QueryData) (σ : Committed) :
    (stepPass d σ).ds.e1 = σ.st.p2 := rfl

theorem stepPass_ds_e2 (d : QueryData) (σ : Committed) :
    (stepPass d σ).ds.e2 = σ.st.c0 := rfl

theorem stepPass_ds_e3 (d : QueryData) (σ : Committed) :
    (stepPass d σ).ds.e3 = σ.st.c1 := rfl

theorem stepPass_ds_e4 (d : QueryData) (σ : Committed) :
    (stepPass d σ).ds.e4 = first0 d σ.st := rfl

theorem stepPass_ds_e5a (d : QueryData) (σ : Committed) :
    (stepPass d σ).ds.e5a = first1 d σ.st := rfl

theorem stepPass_ds_e5b (d : QueryData) (σ : Committed) :
    (stepPass d σ).ds.e5b = first0 d σ.st := rfl

theorem stepPass_ds_e5c (d : QueryData) (σ : Committed) :
    (stepPass d σ).ds.e5c = σ.st.c0 := rfl

theorem stepPass_ds_e6a (d : QueryData) (σ : Committed) :
    (stepPass d σ).ds.e6a = first2 d σ.st := rfl

theorem stepPass_ds_e6b (d : QueryData) (σ : Committed) :
    (stepPass d σ).ds.e6b = first0 d σ.st := rfl

theorem stepPass_ds_e6c (d : QueryData) (σ : Committed) :
    (stepPass d σ).ds.e6c = σ.st.c1 := rfl

/-! ### Stabilization of the cascade

Each effect's dependencies become stationary after a bounded number of
commits, in stages: `parentIds` are never written by effects, so
`filterTexts[0]` is stationary after one commit, hence the first direct
id after one, hence `childIds[0]` after two, hence `filterTexts[1]`
after three, `childIds[1]` after four, `filterTexts[2]` after five and
`childIds[2]` after six; the recorded dependency values lag one commit
behind, so eight commits always reach a fixed point. -/

theorem stepPass_ft0_stable (d : QueryData) (τ : Committed) :
    (stepPass d (stepPass d τ)).st.ft0 = (stepPass d τ).st.ft0 := by
  rw [stepPass_st_ft0, stepPass_st_p0, stepPass_ds_e0, if_pos rfl]

theorem stepPass_first0_stable (d : QueryData) (τ : Committed) :
    first0 d (stepPass d (stepPass d τ)).st = first0 d (stepPass d τ).st :=
  first0_eq_of_ft0 d _ _ (stepPass_ft0_stable d τ)

theorem stepPass_c0_stable (d : QueryData) (τ : Committed) :
    (stepPass d (stepPass d (stepPass d τ))).st.c0 =
      (stepPass d (stepPass d τ)).st.c0 := by
  have h : first0 d (stepPass d (stepPass d τ)).st =
      (stepPass d (stepPass d τ)).ds.e4 := by
    rw [stepPass_ds_e4]; exact stepPass_first0_stable d τ
  rw [stepPass_st_c0]
  simp [h]

theorem stepPass_ft1_stable (d : QueryData) (τ : Committed) :
    (stepPass d (stepPass d (stepPass d (stepPass d τ)))).st.ft1 =
      (stepPass d (stepPass d (stepPass d τ))).st.ft1 := by
  rw [stepPass_st_ft1, stepPass_ds_e2, stepPass_c0_stable, if_pos rfl]

theorem stepPass_first1_stable (d : QueryData) (τ : Committed) :
    first1 d (stepPass d (stepPass d (stepPass d (stepPass d τ)))).st =
      first1 d (stepPass d (stepPass d (stepPass d τ))).st :=
  first1_eq_of_ft1 d _ _ (stepPass_ft1_stable d τ)

theorem stepPass_c1_stable (d : QueryData) (τ : Committed) :
    (stepPass d (stepPass d (stepPass d (stepPass d (stepPass d τ))))).st.c1 =
      (stepPass d (stepPass d (stepPass d (stepPass d τ)))).st.c1 := by
  have h5a : first1 d (stepPass d (stepPass d (stepPass d (stepPass d τ)))).st =
      (stepPass d (stepPass d (stepPass d (stepPass d τ)))).ds.e5a := by
    rw [stepPass_ds_e5a]; exact stepPass_first1_stable d τ
  have h5b : first0 d (stepPass d (stepPass d (stepPass d (stepPass d τ)))).st =
      (stepPass d (stepPass d (stepPass d (stepPass d τ)))).ds.e5b := by
    rw [stepPass_ds_e5b]; exact stepPass_first0_stable d (stepPass d (stepPass d τ))
  have h5c : (stepPass d (stepPass d (stepPass d (stepPass d τ)))).st.c0 =
      (stepPass d (stepPass d (stepPass d (stepPass d τ)))).ds.e5c := by
    rw [stepPass_ds_e5c]; exact stepPass_c0_stable d (stepPass d τ)
  rw [stepPass_st_c1]
  simp [h5a, h5b, h5c]

theorem stepPass_ft2_stable (d : QueryData) (τ : Committed) :
    (stepPass d (stepPass d (stepPass d (stepPass d (stepPass d
      (stepPass d τ)))))).st.ft2 =
      (stepPass d (stepPass d (stepPass d (stepPass d (stepPass d τ))))).st.ft2 := by
  have h1 : (stepPass d (stepPass d (stepPass d (stepPass d (stepPass d τ))))).st.p2 =
      (stepPass d (stepPass d (stepPass d (stepPass d (stepPass d τ))))).ds.e1 := by
    rw [stepPass_ds_e1, stepPass_st_p2]
  have h3 : (stepPass d (stepPass d (stepPass d (stepPass d (stepPass d τ))))).st.c1 =
      (stepPass d (stepPass d (stepPass d (stepPass d (stepPass d τ))))).ds.e3 := by
    rw [stepPass_ds_e3]; exact stepPass_c1_stable d τ
  rw [stepPass_st_ft2, if_pos ⟨h1, h3⟩]

theorem stepPass_first2_stable (d : QueryData) (τ : Committed) :
    first2 d (stepPass d (stepPass d (stepPass d (stepPass d (stepPass d
      (stepPass d τ)))))).st =
      first2 d (stepPass d (stepPass d (stepPass d (stepPass d
        (stepPass d τ))))).st :=
  first2_eq_of_ft2 d _ _ (stepPass_ft2_stable d τ)

theorem stepPass_c2_stable (d : QueryData) (τ : Committed) :
    (stepPass d (stepPass d (stepPass d (stepPass d (stepPass d (stepPass d
      (stepPass d τ))))))).st.c2 =
      (stepPass d (stepPass d (stepPass d (stepPass d (stepPass d
        (stepPass d τ)))))).st.c2 := by
  have h6a : first2 d (stepPass d (stepPass d (stepPass d (stepPass d (stepPass d
      (stepPass d τ)))))).st =
      (stepPass d (stepPass d (stepPass d (stepPass d (stepPass d
        (stepPass d τ)))))).ds.e6a := by
    rw [stepPass_ds_e6a]; exact stepPass_first2_stable d τ
  have h6b : first0 d (stepPass d (stepPass d (stepPass d (stepPass d (stepPass d
      (stepPass d τ)))))).st =
      (stepPass d (stepPass d (stepPass d (stepPass d (stepPass d
        (stepPass d τ)))))).ds.e6b := by
    rw [stepPass_ds_e6b]
    exact stepPass_first0_stable d (stepPass d (stepPass d (stepPass d (stepPass d τ))))
  have h6c : (stepPass d (stepPass d (stepPass d (stepPass d (stepPass d
      (stepPass d τ)))))).st.c1 =
      (stepPass d (stepPass d (stepPass d (stepPass d (stepPass d
        (stepPass d τ)))))).ds.e6c := by
    rw [stepPass_ds_e6c]; exact stepPass_c1_stable d (stepPass d τ)
  rw [stepPass_st_c2]
  simp [h6a, h6b, h6c]

/-- After seven commits the state is stationary, so the eighth commit's
recorded dependency values match the current ones. -/
theorem st_step8_eq_step7 (d : QueryData) (σ : Committed) :
    (stepPass d (stepPass d (stepPass d (stepPass d (stepPass d (stepPass d
      (stepPass d (stepPass d σ)))))))).st =
      (stepPass d (stepPass d (stepPass d (stepPass d (stepPass d (stepPass d
        (stepPass d σ))))))).st := by
  have hft0 := stepPass_ft0_stable d
    (stepPass d (stepPass d (stepPass d (stepPass d (stepPass d (stepPass d σ))))))
  have hft1 := stepPass_ft1_stable d
    (stepPass d (stepPass d (stepPass d (stepPass d σ))))
  have hft2 := stepPass_ft2_stable d (stepPass d (stepPass d σ))
  have hc0 := stepPass_c0_stable d
    (stepPass d (stepPass d (stepPass d (stepPass d (stepPass d σ)))))
  have hc1 := stepPass_c1_stable d (stepPass d (stepPass d (stepPass d σ)))
  have hc2 := stepPass_c2_stable d (stepPass d σ)
  have hpi := stepPass_st_parentIndex d
    (stepPass d (stepPass d (stepPass d (stepPass d (stepPass d (stepPass d
      (stepPass d σ)))))))
  have hp0 := stepPass_st_p0 d
    (stepPass d (stepPass d (stepPass d (stepPass d (stepPass d (stepPass d
      (stepPass d σ)))))))
  have hp1 := stepPass_st_p1 d
    (stepPass d (stepPass d (stepPass d (stepPass d (stepPass d (stepPass d
      (stepPass d σ)))))))
  have hp2 := stepPass_st_p2 d
    (stepPass d (stepPass d (stepPass d (stepPass d (stepPass d (stepPass d
      (stepPass d σ)))))))
  cases hA : (stepPass d (stepPass d (stepPass d (stepPass d (stepPass d (stepPass d
    (stepPass d (stepPass d σ)))))))).st
  cases hB : (stepPass d (stepPass d (stepPass d (stepPass d (stepPass d (stepPass d
    (stepPass d σ))))))).st
  simp_all [AppState.mk.injEq]

/-- The commit cycle fixes the result of a full pass: a pass always
ends settled. -/
theorem stepPass_runPass (d : QueryData) (σ : Committed) :
    stepPass d (runPass d σ) = runPass d σ := by
  apply stepPass_of_deps_eq
  rw [runPass, stepPass_ds]
  rw [st_step8_eq_step7]

/-- A truthy first id exhibits the head of the filtered list. -/
theorem firstIdOf_mem (l : List Candidate) (h : truthy (firstIdOf l) = true) :
    ∃ it ∈ l, firstIdOf l = some it.id := by
  cases l with
  | nil => simp [firstIdOf, truthy] at h
  | cons a t => exact ⟨a, List.mem_cons_self a t, rfl⟩

/-! ## Claim theorems -/

/-- C9.  The CascadeController fixed-point pass is idempotent: a second
full pass over the NavigatorState and the same fetched-data snapshot
produces no further mutations — the committed state (and recorded
dependency values) after two passes equals the state after one. -/
theorem c9_pass_idempotent (d : QueryData) (σ : Committed) :
    runPass d (runPass d σ) = runPass d σ := by
  have h := stepPass_runPass d σ
  rw [runPass]
  rw [h, h, h, h, h, h, h, h]

/-- C3 (amended).  No effect of the cascade ever writes
`activePaneIndex`: a CascadeController pass leaves `parentIndex`
unchanged.  In particular, when `shouldShowIndirect` transitions from
true to false while `activePaneIndex = INDIRECT`, the pass leaves it at
INDIRECT (the render merely hides the pane); it is not reset to
ACTION. -/
theorem c3_amended (d : QueryData) (σ : Committed) :
    (runPass d σ).st.parentIndex = σ.st.parentIndex := rfl

/-- C1 (amended).  Each commit of the CascadeController pass either
leaves a pane's `selectedChildId` unchanged or sets it to the id of the
first element of that pane's filtered list — hence of an element
present in the filtered list.  (A pane whose first filtered id did not
change keeps its previous selection even when that selection no longer
occurs in the filtered list, which is why the claimed invariant fails;
see the counterexample.) -/
theorem c1_amended (d : QueryData) (σ : Committed) :
    ((stepPass d σ).st.c0 = σ.st.c0 ∨
      ∃ it ∈ filtered0 d σ.st, (stepPass d σ).st.c0 = some it.id) ∧
    ((stepPass d σ).st.c1 = σ.st.c1 ∨
      ∃ it ∈ filtered1 d σ.st, (stepPass d σ).st.c1 = some it.id) ∧
    ((stepPass d σ).st.c2 = σ.st.c2 ∨
      ∃ it ∈ filtered2 d σ.st, (stepPass d σ).st.c2 = some it.id) := by
  refine ⟨?_, ?_, ?_⟩
  · rw [stepPass_st_c0]
    split
    · next hcond =>
      obtain ⟨it, hmem, hid⟩ := firstIdOf_mem _ hcond.2
      exact Or.inr ⟨it, hmem, hid⟩
    · exact Or.inl rfl
  · rw [stepPass_st_c1]
    split
    · next hcond =>
      obtain ⟨it, hmem, hid⟩ := firstIdOf_mem _ hcond.2
      exact Or.inr ⟨it, hmem, hid⟩
    · exact Or.inl rfl
  · rw [stepPass_st_c2]
    split
    · next hcond =>
      obtain ⟨it, hmem, hid⟩ := firstIdOf_mem _ hcond.2
      exact Or.inr ⟨it, hmem, hid⟩
    · exact Or.inl rfl

/-- C5 (amended).  The ArrowUp/ArrowDown handler only ever writes
`undefined` (when the filtered list is empty) or the id of an element
of the active pane's filtered list into `selectedChildId`.  (The
claimed global invariant nevertheless fails, because a change of the
fetched data can strand a previously valid selection outside the new
list; see the counterexample.) -/
theorem c5_amended (items : List Candidate) (selected : Option String) (direction : Int) :
    arrowTarget items selected direction = none ∨
      ∃ it ∈ items, arrowTarget items selected direction = some it.id := by
  unfold arrowTarget
  cases hg : items.get?
      (wrapAround (jsFindIndex items selected + direction) items.length).toNat with
  | none => exact Or.inl rfl
  | some it => exact Or.inr ⟨it, List.get?_mem hg, rfl⟩

/-- C8.  The Enter handler awaits the execute call and only then calls
`window.app?.hide()`: when the call fails the `await` throws, the
handler's promise rejects, and the hide request is never issued; the
window is hidden exactly when the execute call returned success.  The
navigator state is unchanged either way. -/
theorem c8_hide_only_on_success (itemCatalogId : String) (d : QueryData)
    (leftResp : Except ApiError (Option String)) (enterResp : Except ApiError Unit)
    (sh m c a : Bool) (σ : Committed) :
    handleKey itemCatalogId d leftResp enterResp ⟨"Enter", sh, m, c, a⟩ σ =
      .ok ⟨σ, true, true, execSucceeded enterResp, !execSucceeded enterResp⟩ := by
  cases enterResp <;> rfl

/-- C6 (amended).  Only the default (character-input) case of the
handler checks for Meta/Ctrl/Alt: an unrecognized key pressed with one
of those modifiers held is ignored — no state mutation, the event not
consumed.  The dedicated cases (Tab, the arrows, Enter, Backspace) act
regardless of those modifiers; see the counterexample. -/
theorem c6_amended (itemCatalogId : String) (d : QueryData)
    (leftResp : Except ApiError (Option String)) (enterResp : Except ApiError Unit)
    (ev : KeyEv) (σ : Committed)
    (hkey : ev.key ∉ ["Tab", "ArrowRight", "ArrowLeft", "ArrowUp", "ArrowDown",
      "Enter", "Backspace"])
    (hmod : (ev.metaKey || ev.ctrlKey || ev.altKey) = true) :
    handleKey itemCatalogId d leftResp enterResp ev σ =
      .ok ⟨σ, false, false, false, false⟩ := by
  simp only [List.mem_cons, List.not_mem_nil, or_false, not_or] at hkey
  obtain ⟨h1, h2, h3, h4, h5, h6, h7⟩ := hkey
  unfold handleKey
  rw [if_neg h1, if_neg h2, if_neg h3, if_neg (not_or_intro h4 h5), if_neg h6,
    if_neg h7, if_pos hmod]

/-! ### The filter contract -/

theorem mem_rankedInsert (x : RankedItem) (l : List RankedItem) (y : RankedItem) :
    y ∈ rankedInsert x l ↔ y = x ∨ y ∈ l := by
  induction l with
  | nil => simp [rankedInsert]
  | cons z zs ih =>
    rw [rankedInsert]
    split
    · rw [List.mem_cons, ih, List.mem_cons]
      tauto
    · rw [List.mem_cons, List.mem_cons]

theorem mem_rankedSort (l : List RankedItem) (y : RankedItem) :
    y ∈ rankedSort l ↔ y ∈ l := by
  induction l with
  | nil => simp [rankedSort]
  | cons x xs ih =>
    rw [rankedSort, mem_rankedInsert, ih, List.mem_cons]

theorem toList_ne_nil (s : String) (h : s ≠ "") : s.toList ≠ [] := by
  intro hh
  apply h
  cases s with
  | mk data =>
    have hd : data = [] := hh
    rw [hd]

/-- Ranking an item against the empty filter text: the empty string is
a prefix of every string, so every non-empty name ranks STARTS_WITH;
an empty name would rank CASE_SENSITIVE_EQUAL. -/
theorem getMatchRanking_blank (name : String) (h : name.toList ≠ []) :
    getMatchRanking name "" = 5 := by
  have hempty : "".toList = ([] : List Char) := rfl
  have hpre : ([] : List Char).isPrefixOf (name.toList.map Char.toLower) = true := by
    cases name.toList.map Char.toLower <;> rfl
  rw [getMatchRanking, hempty]
  rw [if_neg (by simp)]
  rw [if_neg (by simpa using h)]
  rw [getMatchRankingLower]
  simp only [List.map_nil]
  rw [if_neg (by simpa using h)]
  rw [if_pos hpre]

theorem getHighestRanking_blank (c : Candidate) (h : c.name.toList ≠ []) :
    getHighestRanking c "" = (5, 0, c.name) := by
  have hb : getMatchRanking c.name "" = 5 := getMatchRanking_blank c.name h
  show highestAux "" (allValuesToRank c) 0 (0, -1, c.name) = (5, 0, c.name)
  have hv : allValuesToRank c = [c.name] := rfl
  rw [hv]
  simp only [highestAux, hb]
  norm_num

theorem rankItems_blank_map (l : List Candidate) (h : ∀ x ∈ l, x.name ≠ "") :
    ∀ i, (rankItems "" i l).map RankedItem.item = l := by
  induction l with
  | nil => intro i; rfl
  | cons x xs ih =>
    intro i
    have hx := getHighestRanking_blank x (toList_ne_nil x.name (h x (List.mem_cons_self x xs)))
    simp only [rankItems, hx]
    rw [if_pos (by norm_num)]
    simp only [List.map_cons]
    rw [ih (fun y hy => h y (List.mem_cons_of_mem x hy)) (i + 1)]

theorem rankItems_blank_fields (l : List Candidate) (h : ∀ x ∈ l, x.name ≠ "") :
    ∀ i, ∀ r ∈ rankItems "" i l,
      r.rank = 5 ∧ r.keyIndex = 0 ∧ r.rankedValue = r.item.name := by
  induction l with
  | nil => intro i r hr; simp [rankItems] at hr
  | cons x xs ih =>
    intro i r hr
    have hx := getHighestRanking_blank x (toList_ne_nil x.name (h x (List.mem_cons_self x xs)))
    simp only [rankItems, hx] at hr
    rw [if_pos (by norm_num)] at hr
    rcases List.mem_cons.mp hr with rfl | hmem
    · exact ⟨rfl, rfl, rfl⟩
    · exact ih (fun y hy => h y (List.mem_cons_of_mem x hy)) (i + 1) r hmem

/-- On ranked entries of constant rank and key index whose ranked value
is the item's name — the shape every entry has under the empty filter
text — the ranked sort's insertion is the stable insertion by name. -/
theorem rankedInsert_name (r : RankedItem) (l : List RankedItem)
    (hr5 : r.rank = 5) (hrk : r.keyIndex = 0) (hrv : r.rankedValue = r.item.name)
    (hl : ∀ y ∈ l, y.rank = 5 ∧ y.keyIndex = 0 ∧ y.rankedValue = y.item.name) :
    (rankedInsert r l).map RankedItem.item =
      nameInsert r.item (l.map RankedItem.item) := by
  induction l with
  | nil => rfl
  | cons y ys ih =>
    obtain ⟨hy5, hyk, hyv⟩ := hl y (List.mem_cons_self y ys)
    have hiff : RankedBefore y r ↔
        lexCompare y.item.name.toList r.item.name.toList = Ordering.lt := by
      unfold RankedBefore
      rw [hy5, hr5, hyk, hrk, hyv, hrv]
      simp
    rw [rankedInsert, List.map_cons, nameInsert]
    by_cases hc : RankedBefore y r
    · rw [if_pos hc, if_pos (hiff.mp hc), List.map_cons,
        ih (fun z hz => hl z (List.mem_cons_of_mem y hz))]
    · rw [if_neg hc, if_neg (fun hx => hc (hiff.mpr hx)), List.map_cons, List.map_cons]

theorem rankedSort_name (l : List RankedItem)
    (hl : ∀ y ∈ l, y.rank = 5 ∧ y.keyIndex = 0 ∧ y.rankedValue = y.item.name) :
    (rankedSort l).map RankedItem.item = sortByName (l.map RankedItem.item) := by
  induction l with
  | nil => rfl
  | cons x xs ih =>
    obtain ⟨hx5, hxk, hxv⟩ := hl x (List.mem_cons_self x xs)
    have htail : ∀ y ∈ xs, y.rank = 5 ∧ y.keyIndex = 0 ∧ y.rankedValue = y.item.name :=
      fun y hy => hl y (List.mem_cons_of_mem x hy)
    rw [rankedSort, List.map_cons, sortByName]
    rw [rankedInsert_name x (rankedSort xs) hx5 hxk hxv
      (fun y hy => htail y ((mem_rankedSort xs y).mp hy))]
    rw [ih htail]

/-- The kept-and-tagged list contains an entry for `c` exactly when `c`
is in the input and its highest ranking reaches the threshold. -/
theorem rankItems_spec (v : String) (c : Candidate) (l : List Candidate) :
    ∀ i, (∃ r ∈ rankItems v i l, r.item = c) ↔
      c ∈ l ∧ 1 ≤ (getHighestRanking c v).1 := by
  induction l with
  | nil => intro i; simp [rankItems]
  | cons x xs ih =>
    intro i
    simp only [rankItems]
    split
    · next hkeep =>
      constructor
      · rintro ⟨r, hr, hitem⟩
        rcases List.mem_cons.mp hr with rfl | hmem
        · exact ⟨hitem ▸ List.mem_cons_self x xs, hitem ▸ hkeep⟩
        · obtain ⟨hc, hrank⟩ := (ih (i + 1)).mp ⟨r, hmem, hitem⟩
          exact ⟨List.mem_cons_of_mem x hc, hrank⟩
      · rintro ⟨hc, hrank⟩
        rcases List.mem_cons.mp hc with rfl | hmem
        · exact ⟨⟨c, (getHighestRanking c v).2.2, (getHighestRanking c v).1,
            (getHighestRanking c v).2.1, i⟩, List.mem_cons_self _ _, rfl⟩
        · obtain ⟨r, hr, hitem⟩ := (ih (i + 1)).mpr ⟨hmem, hrank⟩
          exact ⟨r, List.mem_cons_of_mem _ hr, hitem⟩
    · next hkeep =>
      rw [ih (i + 1)]
      constructor
      · rintro ⟨hc, hrank⟩
        exact ⟨List.mem_cons_of_mem x hc, hrank⟩
      · rintro ⟨hc, hrank⟩
        rcases List.mem_cons.mp hc with rfl | hmem
        · exact absurd hrank hkeep
        · exact ⟨hmem, hrank⟩

/-- C4 (amended).  The filter is driven by the name alone (the
configured key `'details'` matches no field of a candidate, whose field
is `detail`): `filter(L, t)` retains exactly the candidates of `L`
whose highest name ranking reaches the MATCHES threshold, reordered by
descending rank with `localeCompare`-on-the-matched-name ties (input
order only for identical names); and `filter(L, "")` does not return
`L` in fetch order but — provided every candidate's name is non-empty,
so all ranks are STARTS_WITH — `L` stably sorted alphabetically by
name. -/
theorem c4_amended (L : List Candidate) (t : String) (c : Candidate)
    (hnames : ∀ x ∈ L, x.name ≠ "") :
    matchSorter L "" = sortByName L ∧
    (c ∈ matchSorter L t ↔ c ∈ L ∧ 1 ≤ (getHighestRanking c t).1) := by
  constructor
  · rw [matchSorter, rankedSort_name _ (rankItems_blank_fields L hnames 0),
      rankItems_blank_map L hnames 0]
  · rw [matchSorter]
    constructor
    · intro hc
      obtain ⟨r, hr, hitem⟩ := List.mem_map.mp hc
      rw [mem_rankedSort] at hr
      exact (rankItems_spec t c L 0).mp ⟨r, hr, hitem⟩
    · intro hc
      obtain ⟨r, hr, hitem⟩ := (rankItems_spec t c L 0).mpr hc
      exact List.mem_map.mpr ⟨r, (mem_rankedSort _ r).mpr hr, hitem⟩

/-- Witness for `c4_amended` at a concrete list and filter text. -/
theorem c4_amended_witness :
    (∀ x ∈ listC4, x.name ≠ "") ∧
    (matchSorter listC4 "" = sortByName listC4 ∧
      (candAS ∈ matchSorter listC4 "s" ↔
        candAS ∈ listC4 ∧ 1 ≤ (getHighestRanking candAS "s").1)) :=
  ⟨by decide, c4_amended listC4 "s" candAS (by decide)⟩

/-- C1 counterexample.  From the settled state `σC1` — root list
`[ax, b, cx]`, no filter, selection moved to "b" by ArrowDown — typing
"x" filters the direct list to `[ax, cx]` (non-empty) without changing
its first id, so the auto-select effect does not re-run: after the
pass, `filterTexts[0] = "x"` and `selectedChildId = "b"`, which is the
id of no element of the filtered list. -/
theorem c1_counterexample :
    stepPass dC1 σC1 = σC1 ∧
    ((handleKey "item-catalog" dC1 (.ok none) (.ok ()) evDown σC1).bind
        (fun o1 => handleKey "item-catalog" dC1 (.ok none) (.ok ()) evX o1.final)).map
      (fun o2 => (o2.final.st.ft0, o2.final.st.c0, filtered0 dC1 o2.final.st,
        (filtered0 dC1 o2.final.st).any (fun it => o2.final.st.c0 = some it.id))) =
      .ok ("x", some "b", [candAX, candCX], false) := by decide

/-- C7 evaluation at the failing input.  The two claimed no-ops hold —
ArrowRight on a selected leaf (`hasChildren = false`) and ArrowLeft on
a pane already at root leave the state unchanged — but the KeyRouter is
not total: continuing the run of `c1_counterexample` (selection "b"
filtered out of the active pane's list), pressing ArrowRight makes
`filteredListItems[parentIndex].find` return `undefined` and
`item.hasChildren` throw a TypeError, a crash instead of a no-op. -/
theorem c7_crash_eval :
    (((handleKey "item-catalog" dC1 (.ok none) (.ok ()) evDown σC1).bind
        (fun o1 => handleKey "item-catalog" dC1 (.ok none) (.ok ()) evX o1.final)).bind
      (fun o2 => handleKey "item-catalog" dC1 (.ok none) (.ok ()) evRight o2.final)) =
      .error .typeError ∧
    ((handleKey "item-catalog" dC1 (.ok none) (.ok ()) evDown σC1).bind
      (fun o1 => handleKey "item-catalog" dC1 (.ok none) (.ok ()) evRight o1.final)) =
      ((handleKey "item-catalog" dC1 (.ok none) (.ok ()) evDown σC1).map
        (fun o1 => ⟨o1.final, true, false, false, false⟩)) ∧
    handleKey "item-catalog" dC5 (.ok none) (.ok ()) evLeft σC5 =
      .ok ⟨σC5, true, false, false, false⟩ := by decide

/-- C3 counterexample.  At the settled state `σC3` the indirect pane is
visible and active (`parentIndex = 2`).  The action-pane fetch then
resolves with a payload whose selected action has no indirect types:
`shouldShowIndirect` transitions from true to false during that pass,
and the pass leaves `activePaneIndex` at INDIRECT (2) — it is not set
to ACTION (1). -/
theorem c3_counterexample :
    shouldShowIndirect dC3 σC3.st = true ∧
    stepPass dC3 σC3 = σC3 ∧
    shouldShowIndirect dC3' (runPass dC3' σC3).st = false ∧
    (runPass dC3' σC3).st.parentIndex = 2 := by decide

/-- C5 counterexample.  From the settled state `σC5` (root list
`[folder f1, g]`, selection "f1"), ArrowRight drills into "f1"; the
fetch for its children then resolves with the empty list.  The
auto-select effect's guard is falsy, so `selectedChildId` keeps "f1" —
a non-null id present in no element of the now-current fetched
(unfiltered) list. -/
theorem c5_counterexample :
    stepPass dC5 σC5 = σC5 ∧
    (handleKey "item-catalog" dC5 (.ok none) (.ok ()) evRight σC5).map
      (fun o => ((runPass dC5' o.final).st.c0,
        (dC5'.d0.getD []).any (fun it => (runPass dC5' o.final).st.c0 = some it.id))) =
      .ok (some "f1", false) ∧
    dC5'.d0 = some [] := by decide

/-- C2 counterexample.  From the initial settled state `σC2`
(`parentIds[DIRECT] = null`), typing "s" does set
`filterTexts[DIRECT] = "s"` and select the first match "sand", but
`parentIds[DIRECT]` does not stay unchanged: the handler
unconditionally writes the explicit catalog root id, so it changes
from `null` to `"item-catalog"`. -/
theorem c2_counterexample :
    σC2.st.p0 = none ∧
    stepPass dC2 σC2 = σC2 ∧
    (handleKey "item-catalog" dC2 (.ok none) (.ok ()) evS σC2).map
      (fun o => (o.final.st.ft0, o.final.st.p0, o.final.st.c0)) =
      .ok ("s", some "item-catalog", some "2") := by decide

/-- C6 counterexample.  Tab pressed with Ctrl held is consumed and
mutates the state: `activePaneIndex` moves from 0 to 1.  The modifier
guard exists only in the default (character) case. -/
theorem c6_counterexample :
    evTabCtrl.ctrlKey = true ∧
    σC1.st.parentIndex = 0 ∧
    (handleKey "item-catalog" dC1 (.ok none) (.ok ()) evTabCtrl σC1).map
      (fun o => (o.consumed, o.final.st.parentIndex)) = .ok (true, 1) := by decide

/-- C4 counterexample.  With filter text "s" over
`[as, s, zz(detail = "s")]` the result is `[s, as]`: the candidate
whose `detail` matches is excluded (the configured key is the
nonexistent `details`), and the order is by match rank, not the
fetch-order subsequence `[as, s, zz]` the claim describes.  With the
empty filter text the result is not `L` unchanged: equal-rank
candidates are ordered by `localeCompare` of their names, so
`[bb, aa]` comes back alphabetized as `[aa, bb]`, and an empty-named
candidate outranks the rest and moves to the front. -/
theorem c4_counterexample :
    matchSorter listC4 "s" = [candS, candAS] ∧
    candZZ.detail = "s" ∧
    candZZ ∉ matchSorter listC4 "s" ∧
    matchSorter listC4 "s" ≠ [candAS, candS, candZZ] ∧
    matchSorter listC4'' "" = [candAA, candBB] ∧
    matchSorter listC4'' "" ≠ listC4'' ∧
    matchSorter listC4' "" = [candE0, candA0] ∧
    matchSorter listC4' "" ≠ listC4' := by decide

/-! ### The typing scenario -/

/-- Flushing a write to the active pane's `parentIds` slot from a
settled state: the parent-change filter reset may fire, but it writes
the already-empty filter text, so one commit settles the pass. -/
theorem runPass_setP0 (d : QueryData) (s : AppState) (v : Option String)
    (hft0 : s.ft0 = "") :
    runPass d ⟨{s with p0 := v}, computeDeps d s⟩ =
      ⟨{s with p0 := v}, computeDeps d {s with p0 := v}⟩ := by
  have e0 : first0 d {s with p0 := v} = first0 d s := rfl
  have e1 : first1 d {s with p0 := v} = first1 d s := rfl
  have e2 : first2 d {s with p0 := v} = first2 d s := rfl
  have h1 : stepPass d ⟨{s with p0 := v}, computeDeps d s⟩ =
      ⟨{s with p0 := v}, computeDeps d {s with p0 := v}⟩ := by
    simp only [stepPass, applyEffects, computeDeps, e0, e1, e2]
    simp only [Committed.mk.injEq, AppState.mk.injEq]
    simp [hft0]
  have h2 := stepPass_of_deps_eq d ⟨{s with p0 := v}, computeDeps d {s with p0 := v}⟩ rfl
  rw [runPass, h1, h2, h2, h2, h2, h2, h2, h2]

/-- Flushing the filter-text append `"s"` right after the parent write
settled: the auto-select effect fires exactly when the first filtered
direct id changed, and the downstream cascade re-fires without changing
any value, so the pass settles on `selectedChildId = ` the first
element of the newly filtered direct list. -/
theorem runPass_typeS (d : QueryData) (s : AppState) (v : Option String)
    (hft1 : s.ft1 = "")
    (hc0 : s.c0 = first0 d s)
    (hc1 : truthy (first1 d s) = true → s.c1 = first1 d s)
    (hc2 : truthy (first2 d s) = true → s.c2 = first2 d s)
    (hm : truthy (firstIdOf (filteredOf d.d0 "s")) = true) :
    runPass d ⟨{s with p0 := v, ft0 := "s"}, computeDeps d {s with p0 := v}⟩ =
      ⟨{s with p0 := v, ft0 := "s", c0 := firstIdOf (filteredOf d.d0 "s")},
        computeDeps d
          {s with p0 := v, ft0 := "s", c0 := firstIdOf (filteredOf d.d0 "s")}⟩ := by
  have g1 : first1 d {s with p0 := v, ft0 := "s"} = first1 d s := rfl
  have g2 : first2 d {s with p0 := v, ft0 := "s"} = first2 d s := rfl
  have gM : first0 d {s with p0 := v, ft0 := "s"} =
    firstIdOf (filteredOf d.d0 "s") := rfl
  have g0 : first0 d {s with p0 := v} = first0 d s := rfl
  have g1' : first1 d {s with p0 := v} = first1 d s := rfl
  have g2' : first2 d {s with p0 := v} = first2 d s := rfl
  set M := firstIdOf (filteredOf d.d0 "s") with hMdef
  by_cases hMF : M = first0 d s
  · have hrec : ({s with p0 := v, ft0 := "s", c0 := M} : AppState) =
        {s with p0 := v, ft0 := "s"} := by
      rw [hMF, ← hc0]
    rw [hrec]
    have h1 : stepPass d ⟨{s with p0 := v, ft0 := "s"}, computeDeps d {s with p0 := v}⟩ =
        ⟨{s with p0 := v, ft0 := "s"}, computeDeps d {s with p0 := v, ft0 := "s"}⟩ := by
      simp only [stepPass, applyEffects, computeDeps, g1, g2, gM, g0, g1', g2', hMF]
      simp
    have h2 := stepPass_of_deps_eq d
      ⟨{s with p0 := v, ft0 := "s"}, computeDeps d {s with p0 := v, ft0 := "s"}⟩ rfl
    rw [runPass, h1, h2, h2, h2, h2, h2, h2, h2]
  · have h1 : stepPass d ⟨{s with p0 := v, ft0 := "s"}, computeDeps d {s with p0 := v}⟩ =
        ⟨{s with p0 := v, ft0 := "s", c0 := M},
          computeDeps d {s with p0 := v, ft0 := "s"}⟩ := by
      simp only [stepPass, applyEffects, computeDeps, g1, g2, gM, g0, g1', g2']
      simp only [Committed.mk.injEq, AppState.mk.injEq]
      refine ⟨⟨by trivial, by trivial, by trivial, by trivial, by trivial, by trivial,
        by trivial, ?_, ?_, ?_⟩, by trivial⟩
      · rw [if_pos ⟨hMF, hm⟩]
      · cases htr : truthy (first1 d s) with
        | true => rw [if_pos ⟨by simp [hMF], rfl⟩, ← hc1 htr]
        | false => rw [if_neg (by simp)]
      · cases htr : truthy (first2 d s) with
        | true => rw [if_pos ⟨by simp [hMF], rfl⟩, ← hc2 htr]
        | false => rw [if_neg (by simp)]
    have k0 : first0 d {s with p0 := v, ft0 := "s", c0 := M} = M := gM
    have k1 : first1 d {s with p0 := v, ft0 := "s", c0 := M} = first1 d s := rfl
    have k2 : first2 d {s with p0 := v, ft0 := "s", c0 := M} = first2 d s := rfl
    have hMne : ¬ (M = s.c0) := by rw [hc0]; exact hMF
    have h2 : stepPass d ⟨{s with p0 := v, ft0 := "s", c0 := M},
          computeDeps d {s with p0 := v, ft0 := "s"}⟩ =
        ⟨{s with p0 := v, ft0 := "s", c0 := M},
          computeDeps d {s with p0 := v, ft0 := "s", c0 := M}⟩ := by
      simp only [stepPass, applyEffects, computeDeps, g1, g2, gM, k0, k1, k2]
      simp only [Committed.mk.injEq, AppState.mk.injEq]
      refine ⟨⟨by trivial, by trivial, ?_, by trivial, by trivial, by trivial, by trivial,
        by simp, ?_, by trivial⟩, by trivial⟩
      · rw [if_neg hMne, hft1]
      · cases htr : truthy (first1 d s) with
        | true => rw [if_pos ⟨by simp [hMne], rfl⟩, ← hc1 htr]
        | false => rw [if_neg (by simp)]
    have h3 := stepPass_of_deps_eq d
      ⟨{s with p0 := v, ft0 := "s", c0 := M},
        computeDeps d {s with p0 := v, ft0 := "s", c0 := M}⟩ rfl
    rw [runPass, h1, h2, h3, h3, h3, h3, h3, h3]

/-- C2 (amended).  From the initial settled state at the root
(`parentIds[DIRECT] = null`, empty filters, first root candidate
auto-selected), typing "s" yields `filterTexts[DIRECT] = "s"` and
`selectedChildId = ` the first match for "s" among the root-level
candidates (the head of the match-sorted filtered list), and sets
`parentIds[DIRECT]` to the explicit catalog root id `"item-catalog"` —
which still denotes the catalog root (the fetch URL is the same one
`null` produces) but is no longer `null`.  The reset effect fired by
that parent write lands between the two flushes (React 17 runs them
unbatched), so it clears the still-empty filter text and the typed
character survives. -/
theorem c2_amended (d : QueryData) (lr : Except ApiError (Option String))
    (er : Except ApiError Unit) (σ : Committed)
    (hsettled : σ.ds = computeDeps d σ.st)
    (hidx : σ.st.parentIndex = 0)
    (hp0 : σ.st.p0 = none)
    (hft0 : σ.st.ft0 = "") (hft1 : σ.st.ft1 = "")
    (hc0 : σ.st.c0 = first0 d σ.st)
    (hc1 : truthy (first1 d σ.st) = true → σ.st.c1 = first1 d σ.st)
    (hc2 : truthy (first2 d σ.st) = true → σ.st.c2 = first2 d σ.st)
    (hm : truthy (firstIdOf (filteredOf d.d0 "s")) = true) :
    ∃ o, handleKey "item-catalog" d lr er evS σ = .ok o ∧
      o.final.st.ft0 = "s" ∧
      o.final.st.p0 = some "item-catalog" ∧
      o.final.st.c0 = firstIdOf (filteredOf d.d0 "s") ∧
      stepPass d o.final = o.final := by
  obtain ⟨s, ds⟩ := σ
  simp only at hsettled hidx hp0 hft0 hft1 hc0 hc1 hc2
  subst hsettled
  simp only [handleKey, evS]
  rw [if_neg (by decide), if_neg (by decide), if_neg (by decide), if_neg (by decide),
    if_neg (by decide), if_neg (by decide), if_neg (by decide),
    if_pos (by decide : isAlnumKey (lowerStr "s") = true)]
  rw [hidx]
  have hsp : setPAt s 0 (some "item-catalog") =
      {s with p0 := some "item-catalog"} := rfl
  rw [hsp, runPass_setP0 d s (some "item-catalog") hft0]
  have hfts : s.ft0 ++ "s" = "s" := by rw [hft0]; exact rfl
  have harg : setFtAt ({s with p0 := some "item-catalog"} : AppState) 0
      (ftAt ({s with p0 := some "item-catalog"} : AppState) 0 ++ lowerStr "s") =
      {s with p0 := some "item-catalog", ft0 := "s"} := by
    rw [show setFtAt ({s with p0 := some "item-catalog"} : AppState) 0
        (ftAt ({s with p0 := some "item-catalog"} : AppState) 0 ++ lowerStr "s") =
        {s with p0 := some "item-catalog", ft0 := s.ft0 ++ "s"} from rfl, hfts]
  rw [harg]
  rw [runPass_typeS d s (some "item-catalog") hft1 hc0 hc1 hc2 hm]
  exact ⟨_, rfl, rfl, rfl, rfl, stepPass_of_deps_eq _ _ rfl⟩

/-- Witness for `c2_amended` at the concrete initial state `σC2` over
the root list `[apple, sand]`. -/
theorem c2_amended_witness :
    (σC2.ds = computeDeps dC2 σC2.st ∧ σC2.st.p0 = none ∧
      truthy (firstIdOf (filteredOf dC2.d0 "s")) = true) ∧
    (∃ o, handleKey "item-catalog" dC2 (.ok none) (.ok ()) evS σC2 = .ok o ∧
      o.final.st.ft0 = "s" ∧ o.final.st.p0 = some "item-catalog" ∧
      o.final.st.c0 = firstIdOf (filteredOf dC2.d0 "s") ∧
      stepPass dC2 o.final = o.final) :=
  ⟨⟨rfl, rfl, by decide⟩,
    c2_amended dC2 (.ok none) (.ok ()) σC2 rfl rfl rfl rfl rfl (by decide) (by decide)
      (by decide) (by decide)⟩

/-- Witness for `c6_amended`: the character key "a" with Meta held is
ignored and not consumed. -/
theorem c6_amended_witness :
    ((⟨"a", false, true, false, false⟩ : KeyEv).key ∉ ["Tab", "ArrowRight", "ArrowLeft",
      "ArrowUp", "ArrowDown", "Enter", "Backspace"]) ∧
    handleKey "item-catalog" dC1 (.ok none) (.ok ()) ⟨"a", false, true, false, false⟩ σC1 =
      .ok ⟨σC1, false, false, false, false⟩ :=
  ⟨by decide,
    c6_amended "item-catalog" dC1 (.ok none) (.ok ()) ⟨"a", false, true, false, false⟩ σC1
      (by decide) (by decide)⟩

/-- C10.  Stale-fetch discard: a fetch that was issued for a key `k`
that is no longer any pane's current key writes only the cache entry
for `k` when it resolves.  The data the component observes under the
current keys is unchanged, and the pass the notification would trigger
leaves the settled NavigatorState untouched: selections, filter texts
and displayed lists are unaffected by the stale payload.  (Stated for
each of the three pane caches.) -/
theorem c10_stale_discard (qc : QueryCache) (σ : Committed)
    (kd : Option String) (pld : List Candidate)
    (ka : Option String) (pla : List Candidate)
    (ki : Option String × Option String) (pli : List Candidate)
    (hsettled : stepPass (observe qc σ.st) σ = σ) :
    (kd ≠ σ.st.p0 →
      observe (arriveDirect qc kd pld) σ.st = observe qc σ.st ∧
      runPass (observe (arriveDirect qc kd pld) σ.st) σ = σ) ∧
    (ka ≠ σ.st.c0 →
      observe (arriveAction qc ka pla) σ.st = observe qc σ.st ∧
      runPass (observe (arriveAction qc ka pla) σ.st) σ = σ) ∧
    (ki ≠ (σ.st.p2, σ.st.c1) →
      observe (arriveIndirect qc ki pli) σ.st = observe qc σ.st ∧
      runPass (observe (arriveIndirect qc ki pli) σ.st) σ = σ) := by
  have hrun : runPass (observe qc σ.st) σ = σ := by
    rw [runPass, hsettled, hsettled, hsettled, hsettled, hsettled, hsettled, hsettled,
      hsettled]
  refine ⟨fun hk => ?_, fun hk => ?_, fun hk => ?_⟩
  · have hobs : observe (arriveDirect qc kd pld) σ.st = observe qc σ.st := by
      simp only [observe, arriveDirect]
      rw [if_neg (fun hh => hk hh.symm)]
    exact ⟨hobs, by rw [hobs, hrun]⟩
  · have hobs : observe (arriveAction qc ka pla) σ.st = observe qc σ.st := by
      simp only [observe, arriveAction]
      rw [if_neg (fun hh => hk hh.symm)]
    exact ⟨hobs, by rw [hobs, hrun]⟩
  · have hobs : observe (arriveIndirect qc ki pli) σ.st = observe qc σ.st := by
      simp only [observe, arriveIndirect]
      rw [if_neg (fun hh => hk hh.symm)]
    exact ⟨hobs, by rw [hobs, hrun]⟩

/-- Witness for `c10_stale_discard`: a stale direct-children fetch for
key "k1" resolves while the pane's key is the root; the settled state
`σC10` is unaffected. -/
theorem c10_stale_discard_witness :
    (stepPass (observe qcC10 σC10.st) σC10 = σC10 ∧ some "k1" ≠ σC10.st.p0) ∧
    (observe (arriveDirect qcC10 (some "k1") []) σC10.st = observe qcC10 σC10.st ∧
      runPass (observe (arriveDirect qcC10 (some "k1") []) σC10.st) σC10 = σC10) :=
  ⟨⟨by decide, by decide⟩,
    (c10_stale_discard qcC10 σC10 (some "k1") [] none [] (none, none) []
      (by decide)).1 (by decide)⟩
